import Mathlib

/-!
Shallow embedding of the NiagaraGetData download engine
(src/niagara_download_engine.py and src/utils.py) for checking the
repository's specification.

Modelling conventions:
* Python strings are Lean `String`s; where character-level operations
  matter (`standardize_filename`) the body works on `List Char`.
* The network and filesystem effects of a single item's fetch-and-write
  are abstracted into a `FetchResult`: either the response body reached
  the size check (`ok`), or one of the exception arms of
  `_download_single`'s `try` block fired.
* Floats (`throttle_multiplier`) are modelled as rationals; the
  constants 0.9, 1.5, 1.0 and 5.0 are exact.
* `json.dump`/`json.load` round-tripping of a JSON value is assumed
  (file contents are modelled as parsed JSON values, or as `corrupt`
  when the text would not parse, or `missing`).
-/

namespace Niagara

/-! ## Filename normalizer — `utils.standardize_filename` -/

/-- `str.replace(a, b)` for single characters. -/
def replaceChar (a b : Char) (s : List Char) : List Char :=
  s.map (fun c => if c = a then b else c)

/-- `str.strip(a)` for a single strip character: drop it from both ends. -/
def stripChar (a : Char) (s : List Char) : List Char :=
  (((s.dropWhile (· = a)).reverse.dropWhile (· = a)).reverse)

/-- The characters replaced by the `for char in '<>:"|?*'` loop of
`standardize_filename`. -/
def illegalChars : List Char := ['<', '>', ':', '\x22', '|', '?', '*']

/-- `utils.standardize_filename` on the character list:
`point_path.replace('/', '_').strip('_')`, then each illegal
character replaced by an underscore. -/
def standardizeChars (s : List Char) : List Char :=
  illegalChars.foldl (fun acc c => replaceChar c '_' acc)
    (stripChar '_' (replaceChar '/' '_' s))

/-- `utils.standardize_filename` on strings. -/
def standardize_filename (point_path : String) : String :=
  (standardizeChars point_path.toList).asString

/-! ## Data model — `DownloadStats`, `DownloadState` -/

/-- `DownloadStats` dataclass (the time fields, irrelevant to the
claims, are omitted; `errors` is the ordered list of
`(point_path, error)` pairs). -/
structure DownloadStats where
  total : Nat := 0
  success : Nat := 0
  failed : Nat := 0
  empty : Nat := 0
  skipped : Nat := 0
  bytes_downloaded : Nat := 0
  errors : List (String × String) := []
deriving DecidableEq, Repr

/-- One entry of `DownloadState.failed`: the dict
`{'point': ..., 'error': ..., 'time': ...}`. -/
structure FailedRecord where
  point : String
  error : String
  time : String
deriving DecidableEq, Repr

/-- `DownloadState` dataclass: the persistent resume state. -/
structure DownloadState where
  district : String := ""
  date_started : String := ""
  total_points : Int := 0
  completed : List String := []
  failed : List FailedRecord := []
  empty : List String := []
deriving DecidableEq, Repr

/-! ## JSON values and the persisted state file -/

/-- Parsed JSON values (numbers restricted to integers: the state
schema uses only `total_points`, an integer). -/
inductive Json where
  | null
  | bool (b : Bool)
  | num (n : Int)
  | str (s : String)
  | arr (xs : List Json)
  | obj (kvs : List (String × Json))
deriving Repr

/-- Contents of the state file as seen by `DownloadState.load`:
absent, unparseable text (`json.JSONDecodeError`), or a parsed value. -/
inductive FileContent where
  | missing
  | corrupt
  | json (j : Json)
deriving Repr

/-- `dataclasses.asdict` on a failed-entry dict (already a plain dict
in the source; serialised field by field). -/
def failedToJson (r : FailedRecord) : Json :=
  .obj [("point", .str r.point), ("error", .str r.error), ("time", .str r.time)]

/-- `dataclasses.asdict(self)` for `DownloadState`, as the JSON object
`json.dump` writes. -/
def stateToJson (s : DownloadState) : Json :=
  .obj [("district", .str s.district),
        ("date_started", .str s.date_started),
        ("total_points", .num s.total_points),
        ("completed", .arr (s.completed.map .str)),
        ("failed", .arr (s.failed.map failedToJson)),
        ("empty", .arr (s.empty.map .str))]

def decodeStr : Json → Option String
  | .str s => some s
  | _ => none

def decodeInt : Json → Option Int
  | .num n => some n
  | _ => none

def decodeStrList : Json → Option (List String)
  | .arr xs => xs.mapM decodeStr
  | _ => none

def decodeFailedRecord : Json → Option FailedRecord
  | .obj [("point", .str p), ("error", .str e), ("time", .str t)] =>
      some ⟨p, e, t⟩
  | _ => none

def decodeFailedList : Json → Option (List FailedRecord)
  | .arr xs => xs.mapM decodeFailedRecord
  | _ => none

/-- Field names accepted by `cls(**data)`: exactly the dataclass
fields of `DownloadState`; any other keyword raises `TypeError`. -/
def stateFieldNames : List String :=
  ["district", "date_started", "total_points", "completed", "failed", "empty"]

/-- Decode a field with the dataclass default for an absent key.
(`cls(**data)` fills absent fields from the dataclass defaults; the
Python dataclass does not check value types at construction, so this
model additionally requires each present value to have the annotated
type.) -/
def decodeField (α : Type) (dec : Json → Option α) (dflt : α)
    (kvs : List (String × Json)) (k : String) : Option α :=
  match kvs.lookup k with
  | none => some dflt
  | some v => dec v

/-- `cls(**data)`: succeeds only on a JSON object whose keys all lie
in the dataclass field set (`TypeError` otherwise, caught by `load`). -/
def jsonToState : Json → Option DownloadState
  | .obj kvs =>
      if kvs.all (fun kv => stateFieldNames.contains kv.1) then
        match decodeField String decodeStr "" kvs "district",
              decodeField String decodeStr "" kvs "date_started",
              decodeField Int decodeInt 0 kvs "total_points",
              decodeField (List String) decodeStrList [] kvs "completed",
              decodeField (List FailedRecord) decodeFailedList [] kvs "failed",
              decodeField (List String) decodeStrList [] kvs "empty" with
        | some d, some ds, some tp, some c, some f, some e =>
            some ⟨d, ds, tp, c, f, e⟩
        | _, _, _, _, _, _ => none
      else none
  | _ => none

/-- `DownloadState.save`: writes `json.dump(asdict(self))` to the file. -/
def DownloadState.save (s : DownloadState) : FileContent :=
  .json (stateToJson s)

/-- `DownloadState.load`: `None` for a missing file, `None` (with a
warning logged) when parsing or `cls(**data)` raises, otherwise the
reconstructed state. -/
def DownloadState.load : FileContent → Option DownloadState
  | .missing => none
  | .corrupt => none
  | .json j => jsonToState j

/-! ## Adaptive throttling — the shared counters of `DownloadEngine` -/

/-- The lock-protected pair `_consecutive_failures` /
`_throttle_multiplier` (multiplier as an exact rational; it starts
at 1.0). -/
structure ThrottleState where
  consecutive_failures : Nat
  throttle_multiplier : ℚ
deriving DecidableEq, Repr

/-- Engine construction: `_consecutive_failures = 0`,
`_throttle_multiplier = 1.0`. -/
def initThrottle : ThrottleState := ⟨0, 1⟩

/-- The `with self._lock` block run after a successful write in
`_download_single`. -/
def throttleSuccess (t : ThrottleState) : ThrottleState :=
  ⟨0, max 1 (t.throttle_multiplier * (9 / 10))⟩

/-- `DownloadEngine._handle_failure`: increment the counter, then
bump the multiplier when the incremented counter exceeds 5. -/
def throttleFailure (t : ThrottleState) : ThrottleState :=
  ⟨t.consecutive_failures + 1,
   if 5 < t.consecutive_failures + 1 then min 5 (t.throttle_multiplier * (3 / 2))
   else t.throttle_multiplier⟩

/-- Throttle states reachable from engine construction through the
two updates the code performs. -/
inductive ReachableThrottle : ThrottleState → Prop
  | init : ReachableThrottle initThrottle
  | success {t} : ReachableThrottle t → ReachableThrottle (throttleSuccess t)
  | failure {t} : ReachableThrottle t → ReachableThrottle (throttleFailure t)

/-! ## A single item — `DownloadEngine._download_single` -/

/-- Abstraction of the effects inside `_download_single`'s `try`
block: either the GET succeeded, the status was 2xx and the body was
written (`ok content`, with the body as a byte list), or one of the
four `except` arms fired (`requestExc`/`otherExc` carry `str(e)`). -/
inductive FetchResult where
  | ok (content : List Nat)
  | timeout
  | httpError (status : Option Nat)
  | requestExc (msg : String)
  | otherExc (msg : String)
deriving DecidableEq, Repr

inductive Status where
  | success
  | empty
  | failed
deriving DecidableEq, Repr

/-- The tuple `_download_single` returns. -/
structure SingleResult where
  point : String
  status : Status
  size : Nat
  error : Option String
deriving DecidableEq, Repr

/-- The message of the `HTTPError` arm:
`f'HTTP {status}'` with `'unknown'` when the exception has no
response. -/
def httpErrorMsg : Option Nat → String
  | some n => "HTTP " ++ toString n
  | none => "HTTP unknown"

/-- `DownloadEngine._download_single` given the outcome of its
effects: classification, error message, and throttle update. -/
def downloadSingle (min_content_size : Nat) (point_path : String)
    (res : FetchResult) (t : ThrottleState) : SingleResult × ThrottleState :=
  match res with
  | .ok content =>
      let t' := throttleSuccess t
      if content.length < min_content_size then
        (⟨point_path, .empty, content.length, none⟩, t')
      else
        (⟨point_path, .success, content.length, none⟩, t')
  | .timeout => (⟨point_path, .failed, 0, some "Timeout"⟩, throttleFailure t)
  | .httpError st => (⟨point_path, .failed, 0, some (httpErrorMsg st)⟩, throttleFailure t)
  | .requestExc m => (⟨point_path, .failed, 0, some (m.take 50)⟩, throttleFailure t)
  | .otherExc m => (⟨point_path, .failed, 0, some (m.take 50)⟩, throttleFailure t)

/-- The classification an item receives, as a function of its fetch
outcome alone. -/
def outcomeOf (min_content_size : Nat) : FetchResult → Status
  | .ok content => if content.length < min_content_size then .empty else .success
  | _ => .failed

/-- The error message an item's result carries. -/
def errorOf : FetchResult → Option String
  | .ok _ => none
  | .timeout => some "Timeout"
  | .httpError st => some (httpErrorMsg st)
  | .requestExc m => some (m.take 50)
  | .otherExc m => some (m.take 50)

/-! ## `DownloadEngine.download_batch` -/

/-- The body of `download_batch`'s result-consumption loop for one
completed future (`if error:` is Python truthiness: a record is
appended only for a non-`None`, non-empty message). -/
def recordStats (stats : DownloadStats) (r : SingleResult) : DownloadStats :=
  match r.status with
  | .success =>
      { stats with success := stats.success + 1,
                   bytes_downloaded := stats.bytes_downloaded + r.size }
  | .empty =>
      { stats with empty := stats.empty + 1,
                   bytes_downloaded := stats.bytes_downloaded + r.size }
  | .failed =>
      let s := { stats with failed := stats.failed + 1 }
      match r.error with
      | some e => if e = "" then s else { s with errors := s.errors ++ [(r.point, e)] }
      | none => s

/-- One turn of `download_batch`'s `as_completed` loop: fold a
completed item's `_download_single` result into the stats. -/
def batchStep (min_content_size : Nat)
    (acc : DownloadStats × ThrottleState) (it : String × FetchResult) :
    DownloadStats × ThrottleState :=
  (recordStats acc.1 (downloadSingle min_content_size it.1 it.2 acc.2).1,
   (downloadSingle min_content_size it.1 it.2 acc.2).2)

/-- `DownloadEngine.download_batch`: each item of `url_list` is
dispatched to `_download_single` and its result folded into the
stats (results modelled in a fixed completion order; the counting
claims are order-independent). -/
def downloadBatch (min_content_size : Nat)
    (url_list : List (String × FetchResult)) (t : ThrottleState) :
    DownloadStats × ThrottleState :=
  url_list.foldl (batchStep min_content_size) ({ total := url_list.length }, t)

/-! ## `DownloadEngine.download_batch_with_resume` -/

/-- Accumulator of the resume loop: the completion counter, stats,
in-memory state, throttle pair, and the trace of `state.save` calls
made so far (each element the state at the moment it was written). -/
structure ResumeAcc where
  completed : Nat
  stats : DownloadStats
  state : DownloadState
  throttle : ThrottleState
  saves : List DownloadState
deriving Repr

/-- `error or 'unknown'` — Python truthiness: `None` and the empty
string both fall back to `'unknown'`. -/
def errDisplay : Option String → String
  | some e => if e = "" then "unknown" else e
  | none => "unknown"

/-- The state mutation of the resume loop's three branches: a
`success` appends the identifier to `completed`, an `empty` appends
it to `empty` and to `completed`, a `failed` appends a
`{'point', 'error', 'time'}` record to `failed` only. -/
def resumeState (now : String) (state : DownloadState) (r : SingleResult) : DownloadState :=
  match r.status with
  | .success => { state with completed := state.completed ++ [r.point] }
  | .empty => { state with empty := state.empty ++ [r.point],
                           completed := state.completed ++ [r.point] }
  | .failed => { state with failed := state.failed ++ [⟨r.point, errDisplay r.error, now⟩] }

/-- One iteration of the resume loop: classify the result, update
stats (identically to `download_batch`'s loop) and state, then save
the state when the completion counter is a multiple of 50. -/
def resumeStep (min_content_size : Nat) (now : String)
    (acc : ResumeAcc) (it : String × FetchResult) : ResumeAcc :=
  let r := (downloadSingle min_content_size it.1 it.2 acc.throttle).1
  let t' := (downloadSingle min_content_size it.1 it.2 acc.throttle).2
  let completed := acc.completed + 1
  let stats := recordStats acc.stats r
  let state := resumeState now acc.state r
  let saves := if completed % 50 = 0 then acc.saves ++ [state] else acc.saves
  ⟨completed, stats, state, t', saves⟩

/-- `state = DownloadState.load(state_path)` followed by the fresh
initialisation when no prior state exists. -/
def loadedStateFor (file : FileContent) (district now : String) (n : Nat) : DownloadState :=
  (DownloadState.load file).getD
    { district := district, date_started := now, total_points := (n : Int) }

/-- `remaining = [(p, u) for p, u in url_list if p not in already_done]`. -/
def remainingItems (state : DownloadState)
    (url_list : List (String × FetchResult)) : List (String × FetchResult) :=
  url_list.filter (fun it => ¬ it.1 ∈ state.completed)

/-- `DownloadEngine.download_batch_with_resume`: load the persisted
state for the scope (fresh when `load` returns `None`), filter out
items already in the completed set, run the loop over the remainder,
and save once more at the end — except that an empty remainder
returns before the final save.  `now` stands for
`datetime.now().isoformat()`. -/
def downloadBatchWithResume (min_content_size : Nat) (now : String)
    (url_list : List (String × FetchResult)) (file : FileContent)
    (district : String) (t : ThrottleState) : ResumeAcc :=
  let state := loadedStateFor file district now url_list.length
  let remaining := remainingItems state url_list
  let skipped_by_state := url_list.length - remaining.length
  let stats : DownloadStats := { total := remaining.length, skipped := skipped_by_state }
  if remaining.isEmpty then
    ⟨0, stats, state, t, []⟩
  else
    let acc := remaining.foldl (resumeStep min_content_size now)
      ⟨0, stats, state, t, []⟩
    { acc with saves := acc.saves ++ [acc.state] }

/-! ## `filter_existing_files` -/

/-- `filter_existing_files`.  `today_folder` is the listing of the
`YYYY-MM-DD` partition folder (`none` when `os.path.exists` is
false); `existing` keeps the names ending in `.csv`. -/
def filter_existing_files (url_list : List (String × String))
    (today_folder : Option (List String)) (force : Bool) :
    List (String × String) × Nat :=
  if force then (url_list, 0)
  else
    match today_folder with
    | none => (url_list, 0)
    | some files =>
        let existing := files.filter (fun f => f.endsWith ".csv")
        url_list.foldl
          (fun acc it =>
            let expected := standardize_filename it.1 ++ ".csv"
            if expected ∈ existing then (acc.1, acc.2 + 1)
            else (acc.1 ++ [it], acc.2))
          ([], 0)

/-! ## Lemmas about the filename normalizer -/

theorem mem_replaceChar {a b x : Char} {s : List Char}
    (h : x ∈ replaceChar a b s) : x = b ∨ (x ∈ s ∧ x ≠ a) := by
  simp only [replaceChar, List.mem_map] at h
  obtain ⟨c, hc, hcx⟩ := h
  by_cases hca : c = a
  · subst hca; simp at hcx; exact Or.inl hcx.symm
  · simp [hca] at hcx; subst hcx; exact Or.inr ⟨hc, hca⟩

theorem not_mem_replaceChar {a b x : Char} {s : List Char}
    (hxb : x ≠ b) (h : x = a ∨ x ∉ s) : x ∉ replaceChar a b s := by
  intro hmem
  rcases mem_replaceChar hmem with h1 | ⟨h2, h3⟩
  · exact hxb h1
  · rcases h with h4 | h4
    · exact h3 h4
    · exact h4 h2

theorem stripChar_subset (a : Char) (s : List Char) :
    ∀ x, x ∈ stripChar a s → x ∈ s := by
  intro x hx
  simp only [stripChar, List.mem_reverse] at hx
  have h1 := List.dropWhile_subset (l := (s.dropWhile (· = a)).reverse) (· = a) hx
  rw [List.mem_reverse] at h1
  exact List.dropWhile_subset (· = a) h1

theorem not_mem_foldl_replace (x : Char) (hx : x ≠ '_') :
    ∀ (cs : List Char) (base : List Char), x ∈ cs ∨ x ∉ base →
      x ∉ cs.foldl (fun acc c => replaceChar c '_' acc) base := by
  intro cs
  induction cs with
  | nil =>
      intro base h
      rcases h with h | h
      · cases h
      · exact h
  | cons c cs ih =>
      intro base h
      simp only [List.foldl_cons]
      apply ih
      by_cases hxc : x = c
      · exact Or.inr (not_mem_replaceChar hx (Or.inl hxc))
      · rcases h with h | h
        · rcases List.mem_cons.mp h with h1 | h1
          · exact absurd h1 hxc
          · exact Or.inl h1
        · exact Or.inr (not_mem_replaceChar hx (Or.inr h))

theorem not_mem_standardizeChars (x : Char) (s : List Char)
    (hx : x ≠ '_') (h : x = '/' ∨ x ∈ illegalChars) :
    x ∉ standardizeChars s := by
  unfold standardizeChars
  apply not_mem_foldl_replace x hx
  rcases h with h | h
  · right
    intro hmem
    exact not_mem_replaceChar (a := '/') (b := '_') hx (Or.inl h)
      (stripChar_subset '_' _ x hmem)
  · exact Or.inl h

/-- C3 (amended): `standardize_filename` is deterministic and its
output never contains any of `/ < > : " | ? *`.  (The backslash of
the original claim is dropped: the source replaces only `/` and the
seven characters of `'<>:"|?*'`, so a backslash in the input survives
to the output — see the counterexample.) -/
theorem standardize_filename_safe (s : String) :
    standardize_filename s = standardize_filename s ∧
    ∀ c ∈ (standardize_filename s).toList, c ∉ '/' :: illegalChars := by
  refine ⟨rfl, ?_⟩
  intro c hc hbad
  have hlist : c ∈ standardizeChars s.toList := hc
  have hall : ∀ y ∈ '/' :: illegalChars, y ≠ '_' := by decide
  have hcu : c ≠ '_' := hall c hbad
  rcases List.mem_cons.mp hbad with h | h
  · exact not_mem_standardizeChars c s.toList hcu (Or.inl h) hlist
  · exact not_mem_standardizeChars c s.toList hcu (Or.inr h) hlist

/-- C3 witness: the theorem applied at the concrete input "a/b". -/
theorem standardize_filename_safe_witness :
    ('/' : Char) ∉ (standardize_filename "a/b").toList :=
  fun h => (standardize_filename_safe "a/b").2 '/' h (by decide)

/-- C3 counterexample: a backslash in the input survives to the
output, so the original claim's exclusion list (which includes `\`)
fails on the input `"a\b"`. -/
theorem standardize_filename_backslash_cex :
    standardize_filename "a\\b" = "a\\b" ∧
    '\\' ∈ (standardize_filename "a\\b").toList := by
  constructor
  · rfl
  · decide

/-! ## Lemmas about `_download_single` -/

theorem downloadSingle_point (m : Nat) (p : String) (r : FetchResult) (t : ThrottleState) :
    (downloadSingle m p r t).1.point = p := by
  cases r <;> simp only [downloadSingle] <;> split <;> rfl

theorem downloadSingle_status (m : Nat) (p : String) (r : FetchResult) (t : ThrottleState) :
    (downloadSingle m p r t).1.status = outcomeOf m r := by
  cases r <;> simp only [downloadSingle, outcomeOf] <;> split <;> rfl

theorem downloadSingle_error (m : Nat) (p : String) (r : FetchResult) (t : ThrottleState) :
    (downloadSingle m p r t).1.error = errorOf r := by
  cases r <;> simp only [downloadSingle, errorOf] <;> split <;> rfl

theorem downloadSingle_throttle (m : Nat) (p : String) (r : FetchResult) (t : ThrottleState) :
    (downloadSingle m p r t).2 =
      if outcomeOf m r = .failed then throttleFailure t else throttleSuccess t := by
  cases r with
  | ok c =>
      simp only [downloadSingle, outcomeOf]
      split <;> simp
  | timeout => simp [downloadSingle, outcomeOf]
  | httpError st => simp [downloadSingle, outcomeOf]
  | requestExc msg => simp [downloadSingle, outcomeOf]
  | otherExc msg => simp [downloadSingle, outcomeOf]

/-! ## Lemmas about the `download_batch` consumption loop -/

theorem recordStats_total (s : DownloadStats) (r : SingleResult) :
    (recordStats s r).total = s.total := by
  obtain ⟨p, st, sz, e⟩ := r
  cases st with
  | success => rfl
  | empty => rfl
  | failed =>
      cases e with
      | none => rfl
      | some e =>
          simp only [recordStats]
          split <;> rfl

theorem recordStats_skipped (s : DownloadStats) (r : SingleResult) :
    (recordStats s r).skipped = s.skipped := by
  obtain ⟨p, st, sz, e⟩ := r
  cases st with
  | success => rfl
  | empty => rfl
  | failed =>
      cases e with
      | none => rfl
      | some e =>
          simp only [recordStats]
          split <;> rfl

theorem recordStats_sum (s : DownloadStats) (r : SingleResult) :
    (recordStats s r).success + (recordStats s r).failed + (recordStats s r).empty =
      s.success + s.failed + s.empty + 1 := by
  obtain ⟨p, st, sz, e⟩ := r
  cases st with
  | success => simp [recordStats]; omega
  | empty => simp [recordStats]; omega
  | failed =>
      cases e with
      | none => simp [recordStats]; omega
      | some e =>
          simp only [recordStats]
          split <;> simp <;> omega

theorem recordStats_failed (s : DownloadStats) (r : SingleResult) :
    (recordStats s r).failed =
      s.failed + (if r.status = .failed then 1 else 0) := by
  obtain ⟨p, st, sz, e⟩ := r
  cases st with
  | success => simp [recordStats]
  | empty => simp [recordStats]
  | failed =>
      simp only [recordStats]
      cases e with
      | none => simp
      | some e => by_cases he : e = "" <;> simp [he]

theorem recordStats_errors (s : DownloadStats) (r : SingleResult) :
    (recordStats s r).errors =
      s.errors ++
        (if r.status = .failed then
           (match r.error with
            | some e => if e = "" then [] else [(r.point, e)]
            | none => [])
         else []) := by
  obtain ⟨p, st, sz, e⟩ := r
  cases st with
  | success => simp [recordStats]
  | empty => simp [recordStats]
  | failed =>
      simp only [recordStats]
      cases e with
      | none => simp
      | some e => by_cases he : e = "" <;> simp [he]

/-- The visible error record an item contributes to
`DownloadStats.errors` (`None` when there is no message or the
message is the empty string, which Python's `if error:` rejects). -/
def visibleError (p : String) (r : FetchResult) : Option (String × String) :=
  match errorOf r with
  | some e => if e = "" then none else some (p, e)
  | none => none

theorem httpErrorMsg_ne_empty (st : Option Nat) : httpErrorMsg st ≠ "" := by
  cases st with
  | none => decide
  | some n =>
      intro h
      have hlen := congrArg String.length h
      rw [httpErrorMsg, String.length_append] at hlen
      simp at hlen
      exact absurd hlen.1 (by decide)

/-- The error record a single completed item contributes to
`DownloadStats.errors`. -/
theorem errContribution (m : Nat) (p : String) (fr : FetchResult) :
    (if outcomeOf m fr = .failed then
       (match errorOf fr with
        | some e => if e = "" then [] else [(p, e)]
        | none => ([] : List (String × String)))
     else []) = (visibleError p fr).toList := by
  cases fr with
  | ok c =>
      simp only [outcomeOf, errorOf, visibleError]
      split <;> simp
  | timeout => simp [outcomeOf, errorOf, visibleError]
  | httpError st =>
      simp [outcomeOf, errorOf, visibleError, httpErrorMsg_ne_empty st]
  | requestExc msg =>
      by_cases he : msg.take 50 = "" <;> simp [outcomeOf, errorOf, visibleError, he]
  | otherExc msg =>
      by_cases he : msg.take 50 = "" <;> simp [outcomeOf, errorOf, visibleError, he]

theorem downloadBatch_loop_invariant (m : Nat) (l : List (String × FetchResult)) :
    ∀ (s0 : DownloadStats) (t0 : ThrottleState),
      (l.foldl (batchStep m) (s0, t0)).1.success +
          (l.foldl (batchStep m) (s0, t0)).1.failed +
          (l.foldl (batchStep m) (s0, t0)).1.empty =
        s0.success + s0.failed + s0.empty + l.length ∧
      (l.foldl (batchStep m) (s0, t0)).1.total = s0.total ∧
      (l.foldl (batchStep m) (s0, t0)).1.failed =
        s0.failed + (l.filter (fun it => outcomeOf m it.2 = .failed)).length ∧
      (l.foldl (batchStep m) (s0, t0)).1.errors =
        s0.errors ++ l.filterMap (fun it => visibleError it.1 it.2) := by
  induction l with
  | nil => intro s0 t0; simp
  | cons hd tl ih =>
      obtain ⟨hp, hf⟩ := hd
      intro s0 t0
      simp only [List.foldl_cons]
      obtain ⟨ih1, ih2, ih3, ih4⟩ :=
        ih (batchStep m (s0, t0) (hp, hf)).1 (batchStep m (s0, t0) (hp, hf)).2
      have hstep : batchStep m (s0, t0) (hp, hf) =
          (recordStats s0 (downloadSingle m hp hf t0).1, (downloadSingle m hp hf t0).2) := rfl
      rw [hstep] at ih1 ih2 ih3 ih4
      have hsum := recordStats_sum s0 (downloadSingle m hp hf t0).1
      have hfail := recordStats_failed s0 (downloadSingle m hp hf t0).1
      have herr := recordStats_errors s0 (downloadSingle m hp hf t0).1
      rw [downloadSingle_status] at hfail herr
      rw [downloadSingle_error, downloadSingle_point] at herr
      refine ⟨?_, ?_, ?_, ?_⟩
      · rw [hstep, ih1]
        simp only [List.length_cons]
        omega
      · rw [hstep, ih2, recordStats_total]
      · rw [hstep, ih3, hfail]
        by_cases h : outcomeOf m hf = .failed
        · simp only [List.filter_cons, h]
          simp
          omega
        · simp only [List.filter_cons, h]
          simp [h]
      · rw [hstep, ih4, herr, errContribution m hp hf, List.append_assoc]
        congr 1
        cases hv : visibleError hp hf with
        | none => simp [List.filterMap_cons, hv]
        | some b => simp [List.filterMap_cons, hv]

theorem visibleError_some {p : String} {fr : FetchResult} {pe : String × String}
    (h : visibleError p fr = some pe) : pe.2 ≠ "" := by
  unfold visibleError at h
  cases herr : errorOf fr with
  | none => rw [herr] at h; cases h
  | some e =>
      rw [herr] at h
      by_cases he : e = ""
      · simp [he] at h
      · simp [he] at h
        rw [← h]
        exact he

/-- C1: for every non-empty item list, after `download_batch`
completes, `success + failed + empty = total` where `total` is the
input length: every item is classified into exactly one terminal
outcome (`outcomeOf`: `success` when the body length is at least
`min_content_size`, `empty` when shorter, `failed` on any
exception). -/
theorem download_batch_conservation (m : Nat) (items : List (String × FetchResult))
    (t : ThrottleState) (hne : items ≠ []) :
    (downloadBatch m items t).1.success + (downloadBatch m items t).1.failed +
        (downloadBatch m items t).1.empty = (downloadBatch m items t).1.total ∧
    (downloadBatch m items t).1.total = items.length ∧
    (∀ p r t', (downloadSingle m p r t').1.status = outcomeOf m r) := by
  obtain ⟨h1, h2, h3, h4⟩ :=
    downloadBatch_loop_invariant m items { total := items.length } t
  simp only [downloadBatch]
  simp at h1 h2
  refine ⟨?_, h2, fun p r t' => downloadSingle_status m p r t'⟩
  omega

/-- C1 witness: the theorem applied to a concrete one-item batch. -/
theorem download_batch_conservation_witness :
    ([("p", FetchResult.timeout)] : List (String × FetchResult)) ≠ [] ∧
    (downloadBatch 50 [("p", FetchResult.timeout)] initThrottle).1.success +
        (downloadBatch 50 [("p", FetchResult.timeout)] initThrottle).1.failed +
        (downloadBatch 50 [("p", FetchResult.timeout)] initThrottle).1.empty =
      (downloadBatch 50 [("p", FetchResult.timeout)] initThrottle).1.total :=
  ⟨by decide,
   (download_batch_conservation 50 [("p", FetchResult.timeout)] initThrottle (by decide)).1⟩

/-- C7 (amended): every per-item error is caught and counted in
`DownloadStats.failed`, and the batch runs to completion over all
items; an error is recorded as an `(identifier, message)` pair in
`DownloadStats.errors` exactly when its message is non-empty
(`'Timeout'`, `'HTTP <status>'`, or the exception text truncated to
50 characters); an exception whose string form is empty increments
`failed` without an `errors` entry (Python's `if error:` is false on
the empty string) — see the counterexample. -/
theorem download_batch_error_capture (m : Nat) (items : List (String × FetchResult))
    (t : ThrottleState) :
    (downloadBatch m items t).1.failed =
        (items.filter (fun it => outcomeOf m it.2 = .failed)).length ∧
    (downloadBatch m items t).1.errors =
        items.filterMap (fun it => visibleError it.1 it.2) ∧
    ∀ pe ∈ (downloadBatch m items t).1.errors, pe.2 ≠ "" := by
  obtain ⟨h1, h2, h3, h4⟩ :=
    downloadBatch_loop_invariant m items { total := items.length } t
  simp only [downloadBatch]
  simp at h3 h4
  refine ⟨h3, h4, ?_⟩
  intro pe hpe
  rw [h4] at hpe
  obtain ⟨it, _, hsome⟩ := List.mem_filterMap.mp hpe
  exact visibleError_some hsome

/-- C7 witness: the theorem applied to a concrete batch with a
timeout failure. -/
theorem download_batch_error_capture_witness :
    (("a", "Timeout") : String × String).2 ≠ "" :=
  (download_batch_error_capture 50 [("a", FetchResult.timeout)] initThrottle).2.2
    ("a", "Timeout") (by decide)

set_option maxRecDepth 4000 in
/-- C7 counterexample: on the one-item batch whose fetch raises an
exception with an empty string form, the item is counted in `failed`
but no `(identifier, message)` pair is recorded in `errors`
(`str(e)[:50]` is `''` and `if error:` rejects it), refuting the
original claim that every per-item error is recorded in
`DownloadStats.errors`. -/
theorem download_batch_error_capture_cex :
    (downloadBatch 50 [("p", FetchResult.otherExc "")] initThrottle).1.failed = 1 ∧
    (downloadBatch 50 [("p", FetchResult.otherExc "")] initThrottle).1.errors = [] := by
  constructor
  · decide
  · decide

/-! ## Throttle invariants -/

theorem reachable_throttle_bounds {t : ThrottleState} (h : ReachableThrottle t) :
    1 ≤ t.throttle_multiplier ∧ t.throttle_multiplier ≤ 5 := by
  induction h with
  | init => exact ⟨le_refl 1, by norm_num [initThrottle]⟩
  | success h ih =>
      simp only [throttleSuccess]
      constructor
      · exact le_max_left 1 _
      · apply max_le
        · norm_num
        · linarith [ih.2]
  | failure h ih =>
      simp only [throttleFailure]
      split
      · constructor
        · apply le_min
          · norm_num
          · linarith [ih.1]
        · exact min_le_left _ _
      · exact ih

theorem throttle_failure_monotone {t : ThrottleState} (h : ReachableThrottle t)
    (hc : 5 < (throttleFailure t).consecutive_failures) :
    t.throttle_multiplier ≤ (throttleFailure t).throttle_multiplier := by
  obtain ⟨h1, h5⟩ := reachable_throttle_bounds h
  simp only [throttleFailure] at hc ⊢
  rw [if_pos hc]
  apply le_min h5
  linarith

/-- C6: the throttle state obeys the specified update rules and
bounds — a successful item resets the consecutive-failure counter to
zero and multiplies the multiplier by 0.9 with a floor of 1.0; a
failed item increments the counter, and once the counter exceeds 5
the failure multiplies the multiplier by 1.5 with a cap of 5.0; the
multiplier is non-decreasing on a failure with the counter above 5,
and every reachable state satisfies `1 ≤ multiplier ≤ 5`. -/
theorem throttle_policy :
    (∀ t, (throttleSuccess t).consecutive_failures = 0 ∧
        (throttleSuccess t).throttle_multiplier =
          max 1 (t.throttle_multiplier * (9 / 10))) ∧
    (∀ t, (throttleFailure t).consecutive_failures = t.consecutive_failures + 1 ∧
        (throttleFailure t).throttle_multiplier =
          (if 5 < t.consecutive_failures + 1 then
             min 5 (t.throttle_multiplier * (3 / 2))
           else t.throttle_multiplier)) ∧
    (∀ t, ReachableThrottle t →
        1 ≤ t.throttle_multiplier ∧ t.throttle_multiplier ≤ 5) ∧
    (∀ t, ReachableThrottle t → 5 < (throttleFailure t).consecutive_failures →
        t.throttle_multiplier ≤ (throttleFailure t).throttle_multiplier) :=
  ⟨fun _ => ⟨rfl, rfl⟩, fun _ => ⟨rfl, rfl⟩,
   fun _ h => reachable_throttle_bounds h,
   fun _ h hc => throttle_failure_monotone h hc⟩

/-- C6 witness: the theorem's reachable-state conjuncts applied to
the state reached by five consecutive failures from engine start. -/
theorem throttle_policy_witness :
    1 ≤ (throttleFailure (throttleFailure (throttleFailure (throttleFailure
        (throttleFailure initThrottle))))).throttle_multiplier ∧
    (throttleFailure (throttleFailure (throttleFailure (throttleFailure
        (throttleFailure initThrottle))))).throttle_multiplier ≤ 5 ∧
    (throttleFailure (throttleFailure (throttleFailure (throttleFailure
        (throttleFailure initThrottle))))).throttle_multiplier ≤
      (throttleFailure (throttleFailure (throttleFailure (throttleFailure
        (throttleFailure (throttleFailure initThrottle)))))).throttle_multiplier := by
  have r5 : ReachableThrottle (throttleFailure (throttleFailure (throttleFailure
      (throttleFailure (throttleFailure initThrottle))))) :=
    .failure (.failure (.failure (.failure (.failure .init))))
  have hb := throttle_policy.2.2.1 _ r5
  have hm := throttle_policy.2.2.2 _ r5 (by decide)
  exact ⟨hb.1, hb.2, hm⟩

/-- C10 (implicit): an `empty` item (fetched and written without
exception but below `min_content_size`) resets the
consecutive-failure counter and decays the multiplier exactly as a
`success` item does: the throttle update of `_download_single` runs
after the file write and before the size-based classification, so
for throttling purposes any `ok` fetch — whatever its body length —
takes the `throttleSuccess` update, never `throttleFailure`. -/
theorem empty_outcome_resets_throttle (m : Nat) (p : String) (c : List Nat)
    (t : ThrottleState) (h : c.length < m) :
    (downloadSingle m p (.ok c) t).1.status = .empty ∧
    (downloadSingle m p (.ok c) t).2 = throttleSuccess t ∧
    (downloadSingle m p (.ok c) t).2.consecutive_failures = 0 ∧
    (∀ c', (downloadSingle m p (.ok c') t).2 = throttleSuccess t) := by
  refine ⟨?_, ?_, ?_, fun c' => ?_⟩
  · simp [downloadSingle, h]
  · simp [downloadSingle, h]
  · simp [downloadSingle, h, throttleSuccess]
  · simp only [downloadSingle]
    split <;> rfl

/-- C10 witness: the theorem applied to a 3-byte body with the
default 50-byte threshold. -/
theorem empty_outcome_resets_throttle_witness :
    ([0, 0, 0] : List Nat).length < 50 ∧
    (downloadSingle 50 "p" (.ok [0, 0, 0]) initThrottle).1.status = Status.empty :=
  ⟨by decide,
   (empty_outcome_resets_throttle 50 "p" [0, 0, 0] initThrottle (by decide)).1⟩

/-! ## Lemmas about the resume loop -/

theorem resumeState_completed (now : String) (state : DownloadState) (r : SingleResult) :
    (resumeState now state r).completed =
      state.completed ++ (if r.status = .failed then [] else [r.point]) := by
  obtain ⟨p, st, sz, e⟩ := r
  cases st <;> simp [resumeState]

theorem resumeState_empty (now : String) (state : DownloadState) (r : SingleResult) :
    (resumeState now state r).empty =
      state.empty ++ (if r.status = .empty then [r.point] else []) := by
  obtain ⟨p, st, sz, e⟩ := r
  cases st <;> simp [resumeState]

theorem resumeState_failed (now : String) (state : DownloadState) (r : SingleResult) :
    (resumeState now state r).failed =
      state.failed ++
        (if r.status = .failed then [⟨r.point, errDisplay r.error, now⟩] else []) := by
  obtain ⟨p, st, sz, e⟩ := r
  cases st <;> simp [resumeState]

theorem resume_loop_invariant (m : Nat) (now : String)
    (l : List (String × FetchResult)) :
    ∀ acc : ResumeAcc,
      (l.foldl (resumeStep m now) acc).stats.skipped = acc.stats.skipped ∧
      (l.foldl (resumeStep m now) acc).stats.total = acc.stats.total ∧
      (l.foldl (resumeStep m now) acc).completed = acc.completed + l.length ∧
      (l.foldl (resumeStep m now) acc).state.completed =
        acc.state.completed ++
          (l.filter (fun it => ¬ outcomeOf m it.2 = .failed)).map (fun it => it.1) ∧
      (l.foldl (resumeStep m now) acc).state.empty =
        acc.state.empty ++
          (l.filter (fun it => outcomeOf m it.2 = .empty)).map (fun it => it.1) ∧
      (l.foldl (resumeStep m now) acc).state.failed =
        acc.state.failed ++
          (l.filter (fun it => outcomeOf m it.2 = .failed)).map
            (fun it => (⟨it.1, errDisplay (errorOf it.2), now⟩ : FailedRecord)) ∧
      (l.foldl (resumeStep m now) acc).saves.length =
        acc.saves.length + ((acc.completed + l.length) / 50 - acc.completed / 50) := by
  induction l with
  | nil =>
      intro acc
      simp
  | cons hd tl ih =>
      obtain ⟨hp, hf⟩ := hd
      intro acc
      simp only [List.foldl_cons]
      obtain ⟨ih1, ih2, ih3, ih4, ih5, ih6, ih7⟩ := ih (resumeStep m now acc (hp, hf))
      have hstats : (resumeStep m now acc (hp, hf)).stats =
          recordStats acc.stats (downloadSingle m hp hf acc.throttle).1 := rfl
      have hstate : (resumeStep m now acc (hp, hf)).state =
          resumeState now acc.state (downloadSingle m hp hf acc.throttle).1 := rfl
      have hcomp : (resumeStep m now acc (hp, hf)).completed = acc.completed + 1 := rfl
      have hsaves : (resumeStep m now acc (hp, hf)).saves =
          (if (acc.completed + 1) % 50 = 0 then
             acc.saves ++ [resumeState now acc.state (downloadSingle m hp hf acc.throttle).1]
           else acc.saves) := rfl
      refine ⟨?_, ?_, ?_, ?_, ?_, ?_, ?_⟩
      · rw [ih1, hstats, recordStats_skipped]
      · rw [ih2, hstats, recordStats_total]
      · rw [ih3, hcomp, List.length_cons]
        omega
      · rw [ih4, hstate, resumeState_completed, downloadSingle_status, downloadSingle_point]
        by_cases h : outcomeOf m hf = .failed <;>
          simp [h, List.filter_cons, List.append_assoc]
      · rw [ih5, hstate, resumeState_empty, downloadSingle_status, downloadSingle_point]
        by_cases h : outcomeOf m hf = .empty <;>
          simp [h, List.filter_cons, List.append_assoc]
      · rw [ih6, hstate, resumeState_failed, downloadSingle_status, downloadSingle_point,
            downloadSingle_error]
        by_cases h : outcomeOf m hf = .failed <;>
          simp [h, List.filter_cons, List.append_assoc]
      · rw [ih7, hcomp, hsaves, List.length_cons]
        by_cases h : (acc.completed + 1) % 50 = 0
        · rw [if_pos h]
          simp only [List.length_append, List.length_cons, List.length_nil]
          omega
        · rw [if_neg h]
          omega

theorem skipped_count (items : List (String × FetchResult)) (comp : List String) :
    items.length - (items.filter (fun it => ¬ it.1 ∈ comp)).length =
      (items.filter (fun it => it.1 ∈ comp)).length := by
  have h := List.length_eq_length_filter_add (l := items)
    (fun it => decide (it.1 ∈ comp))
  simp only [decide_not] at *
  omega

/-- Stats of `download_batch_with_resume`: `skipped` counts the items
filtered out by the loaded completed set, `total` is the size of the
remainder. -/
theorem resume_stats_characterization (m : Nat) (now district : String)
    (items : List (String × FetchResult)) (file : FileContent) (t : ThrottleState) :
    (downloadBatchWithResume m now items file district t).stats.skipped =
      (items.filter
        (fun it => it.1 ∈ (loadedStateFor file district now items.length).completed)).length ∧
    (downloadBatchWithResume m now items file district t).stats.total =
      (remainingItems (loadedStateFor file district now items.length) items).length := by
  simp only [downloadBatchWithResume]
  split
  · constructor
    · simp only [remainingItems]
      exact skipped_count items _
    · rfl
  · obtain ⟨h1, h2, _, _, _, _, _⟩ :=
      resume_loop_invariant m now
        (remainingItems (loadedStateFor file district now items.length) items)
        ⟨0, { total := (remainingItems (loadedStateFor file district now items.length) items).length,
              skipped := items.length -
                (remainingItems (loadedStateFor file district now items.length) items).length },
          loadedStateFor file district now items.length, t, []⟩
    constructor
    · rw [h1]
      simp only [remainingItems]
      exact skipped_count items _
    · rw [h2]

/-- Final in-memory state of `download_batch_with_resume`, relative
to the loaded state and the executed remainder. -/
theorem resume_state_characterization (m : Nat) (now district : String)
    (items : List (String × FetchResult)) (file : FileContent) (t : ThrottleState) :
    (downloadBatchWithResume m now items file district t).state.completed =
      (loadedStateFor file district now items.length).completed ++
        ((remainingItems (loadedStateFor file district now items.length) items).filter
          (fun it => ¬ outcomeOf m it.2 = .failed)).map (fun it => it.1) ∧
    (downloadBatchWithResume m now items file district t).state.empty =
      (loadedStateFor file district now items.length).empty ++
        ((remainingItems (loadedStateFor file district now items.length) items).filter
          (fun it => outcomeOf m it.2 = .empty)).map (fun it => it.1) ∧
    (downloadBatchWithResume m now items file district t).state.failed =
      (loadedStateFor file district now items.length).failed ++
        ((remainingItems (loadedStateFor file district now items.length) items).filter
          (fun it => outcomeOf m it.2 = .failed)).map
            (fun it => (⟨it.1, errDisplay (errorOf it.2), now⟩ : FailedRecord)) := by
  simp only [downloadBatchWithResume]
  split
  case isTrue h =>
    rw [List.isEmpty_iff] at h
    rw [h]
    simp
  case isFalse h =>
    obtain ⟨_, _, _, h4, h5, h6, _⟩ :=
      resume_loop_invariant m now
        (remainingItems (loadedStateFor file district now items.length) items)
        ⟨0, { total := (remainingItems (loadedStateFor file district now items.length) items).length,
              skipped := items.length -
                (remainingItems (loadedStateFor file district now items.length) items).length },
          loadedStateFor file district now items.length, t, []⟩
    exact ⟨h4, h5, h6⟩

/-- C2: `download_batch_with_resume` loads the persisted state for
the scope and executes only the items whose identifier is not in the
loaded completed set (`remainingItems`); `DownloadStats.skipped`
equals the number of input items filtered out this way; for every
executed item, a `success` appends the identifier to the completed
list, an `empty` appends it to both the empty and the completed
lists (so empty items are never retried later), and a `failed`
appends a record to the failed list only (so failed identifiers stay
eligible for retry). -/
theorem resume_filters_and_updates_state (m : Nat) (now district : String)
    (items : List (String × FetchResult)) (file : FileContent) (t : ThrottleState) :
    (downloadBatchWithResume m now items file district t).stats.skipped =
      (items.filter
        (fun it => it.1 ∈ (loadedStateFor file district now items.length).completed)).length ∧
    (downloadBatchWithResume m now items file district t).stats.total =
      (remainingItems (loadedStateFor file district now items.length) items).length ∧
    (downloadBatchWithResume m now items file district t).state.completed =
      (loadedStateFor file district now items.length).completed ++
        ((remainingItems (loadedStateFor file district now items.length) items).filter
          (fun it => ¬ outcomeOf m it.2 = .failed)).map (fun it => it.1) ∧
    (downloadBatchWithResume m now items file district t).state.empty =
      (loadedStateFor file district now items.length).empty ++
        ((remainingItems (loadedStateFor file district now items.length) items).filter
          (fun it => outcomeOf m it.2 = .empty)).map (fun it => it.1) ∧
    (downloadBatchWithResume m now items file district t).state.failed =
      (loadedStateFor file district now items.length).failed ++
        ((remainingItems (loadedStateFor file district now items.length) items).filter
          (fun it => outcomeOf m it.2 = .failed)).map
            (fun it => (⟨it.1, errDisplay (errorOf it.2), now⟩ : FailedRecord)) := by
  obtain ⟨hs1, hs2⟩ := resume_stats_characterization m now district items file t
  obtain ⟨hc, he, hf⟩ := resume_state_characterization m now district items file t
  exact ⟨hs1, hs2, hc, he, hf⟩

/-- C8 (amended): during `download_batch_with_resume` the state is
persisted after every 50th completed item and once more at the end —
but only when the post-filter remainder is non-empty: an empty
remainder returns before the final `state.save`, so no save happens
at all (see the counterexample).  For a non-empty remainder the save
trace has exactly `len / 50 + 1` entries and ends with the final
state, so at most 49 completed items can be unrecorded on
interruption. -/
theorem resume_periodic_saves (m : Nat) (now district : String)
    (items : List (String × FetchResult)) (file : FileContent) (t : ThrottleState) :
    (remainingItems (loadedStateFor file district now items.length) items = [] →
        (downloadBatchWithResume m now items file district t).saves = []) ∧
    (remainingItems (loadedStateFor file district now items.length) items ≠ [] →
        (downloadBatchWithResume m now items file district t).saves.length =
          (remainingItems (loadedStateFor file district now items.length) items).length / 50
            + 1 ∧
        (downloadBatchWithResume m now items file district t).saves.getLast? =
          some (downloadBatchWithResume m now items file district t).state) := by
  simp only [downloadBatchWithResume]
  split
  case isTrue h =>
    rw [List.isEmpty_iff] at h
    exact ⟨fun _ => rfl, fun hne => absurd h hne⟩
  case isFalse h =>
    constructor
    · intro hnil
      exact absurd (by rw [hnil]; rfl) h
    · intro _
      obtain ⟨_, _, _, _, _, _, h7⟩ :=
        resume_loop_invariant m now
          (remainingItems (loadedStateFor file district now items.length) items)
          ⟨0, { total := (remainingItems (loadedStateFor file district now items.length) items).length,
                skipped := items.length -
                  (remainingItems (loadedStateFor file district now items.length) items).length },
            loadedStateFor file district now items.length, t, []⟩
      constructor
      · simp only [List.length_append, List.length_cons, List.length_nil]
        rw [h7]
        simp
      · exact List.getLast?_concat _

/-- C8 witness: on a concrete one-item batch with no prior state the
theorem yields exactly one save (`1 / 50 + 1 = 1`). -/
theorem resume_periodic_saves_witness :
    (downloadBatchWithResume 50 "" [("a", FetchResult.timeout)]
        .missing "" initThrottle).saves.length = 1 := by
  have h := (resume_periodic_saves 50 "" "" [("a", FetchResult.timeout)]
      .missing initThrottle).2 (by decide)
  rw [h.1]
  decide

/-- C8 counterexample: with an empty input list the post-filter
remainder is empty, `download_batch_with_resume` returns before the
final `state.save`, and the save trace is empty — refuting the
original claim that the state is persisted once more unconditionally
at the end for every input list. -/
theorem resume_final_save_cex :
    (downloadBatchWithResume 50 "" ([] : List (String × FetchResult))
        .missing "" initThrottle).saves = [] := rfl

/-! ## State file round-trip -/

theorem mapM_decodeStr (l : List String) :
    (l.map Json.str).mapM decodeStr = some l := by
  induction l with
  | nil => rfl
  | cons a l ih =>
      rw [List.map_cons, List.mapM_cons, ih]
      rfl

theorem decodeStrList_map (l : List String) :
    decodeStrList (.arr (l.map .str)) = some l := by
  rw [show decodeStrList (.arr (l.map .str)) = (l.map Json.str).mapM decodeStr from rfl,
     mapM_decodeStr]

theorem decodeFailedRecord_roundtrip (r : FailedRecord) :
    decodeFailedRecord (failedToJson r) = some r := rfl

theorem mapM_decodeFailed (l : List FailedRecord) :
    (l.map failedToJson).mapM decodeFailedRecord = some l := by
  induction l with
  | nil => rfl
  | cons a l ih =>
      rw [List.map_cons, List.mapM_cons, decodeFailedRecord_roundtrip, ih]
      rfl

theorem decodeFailedList_map (l : List FailedRecord) :
    decodeFailedList (.arr (l.map failedToJson)) = some l := by
  rw [show decodeFailedList (.arr (l.map failedToJson)) =
        (l.map failedToJson).mapM decodeFailedRecord from rfl,
     mapM_decodeFailed]

/-- C4: saving a `DownloadState` and reloading it yields a state with
identical `district`, `date_started`, `total_points`, `completed`,
`failed` and `empty` — save followed by load is the identity on the
persisted fields. -/
theorem state_save_load_roundtrip (s : DownloadState) :
    DownloadState.load (DownloadState.save s) = some s := by
  obtain ⟨d, ds, tp, comp, fl, emp⟩ := s
  simp only [DownloadState.save, DownloadState.load, stateToJson, jsonToState,
    decodeField, List.lookup, decodeStr, decodeInt]
  simp [stateFieldNames, decodeStrList_map, decodeFailedList_map]

/-! ## Load behaviour on missing and malformed state files -/

/-- C5 (amended): `DownloadState.load` returns `None` — never
raising — for a missing file, a file whose contents are not valid
JSON, a JSON value that is not an object, or an object containing a
key outside the six dataclass fields; and a
`download_batch_with_resume` run with no prior state processes all
items as a fresh run (`skipped = 0`, every item executed).  However,
an object whose keys are a proper subset of the schema's fields is
accepted by `cls(**data)` with dataclass defaults for the absent
fields, so a schema-incomplete file yields a state rather than
`None` — see the counterexample. -/
theorem load_no_prior_state :
    DownloadState.load .missing = none ∧
    DownloadState.load .corrupt = none ∧
    DownloadState.load (.json .null) = none ∧
    (∀ b, DownloadState.load (.json (.bool b)) = none) ∧
    (∀ n, DownloadState.load (.json (.num n)) = none) ∧
    (∀ s, DownloadState.load (.json (.str s)) = none) ∧
    (∀ xs, DownloadState.load (.json (.arr xs)) = none) ∧
    (∀ kvs k v, (k, v) ∈ kvs → ¬ k ∈ stateFieldNames →
        DownloadState.load (.json (.obj kvs)) = none) ∧
    (∀ (m : Nat) (now district : String) (items : List (String × FetchResult))
        (t : ThrottleState),
        (downloadBatchWithResume m now items .missing district t).stats.skipped = 0 ∧
        (downloadBatchWithResume m now items .missing district t).stats.total =
          items.length) := by
  refine ⟨rfl, rfl, rfl, fun b => rfl, fun n => rfl, fun s => rfl, fun xs => rfl,
    ?_, ?_⟩
  · intro kvs k v hmem hk
    simp only [DownloadState.load, jsonToState]
    rw [if_neg]
    intro hall
    rw [List.all_eq_true] at hall
    have hcontains := hall (k, v) hmem
    simp only [List.contains_iff_exists_mem_beq, beq_iff_eq] at hcontains
    obtain ⟨k2, hk2, hkeq⟩ := hcontains
    exact hk (hkeq ▸ hk2)
  · intro m now district items t
    obtain ⟨h1, h2⟩ := resume_stats_characterization m now district items .missing t
    have hfresh : loadedStateFor .missing district now items.length =
        { district := district, date_started := now,
          total_points := (items.length : Int) } := rfl
    constructor
    · rw [h1, hfresh]
      simp
    · rw [h2, hfresh, remainingItems]
      simp

/-- C5 witness: the theorem's quantified conjuncts applied at
concrete inputs — a JSON array, an object with the unexpected key
`"bogus"`, and a concrete fresh-state resume run. -/
theorem load_no_prior_state_witness :
    DownloadState.load (.json (.arr [])) = none ∧
    DownloadState.load (.json (.obj [("bogus", .num 1)])) = none ∧
    (downloadBatchWithResume 50 "" [("a", FetchResult.timeout)]
        .missing "" initThrottle).stats.skipped = 0 :=
  ⟨load_no_prior_state.2.2.2.2.2.2.1 [],
   load_no_prior_state.2.2.2.2.2.2.2.1 [("bogus", .num 1)] "bogus" (.num 1)
     (List.mem_singleton.mpr rfl) (by decide),
   (load_no_prior_state.2.2.2.2.2.2.2.2 50 "" "" [("a", FetchResult.timeout)]
     initThrottle).1⟩

/-- C5 counterexample: a valid-JSON state file containing only
`{"completed": ["a"]}` does not match the state schema (five fields
are absent), yet `load` returns a state — `cls(**data)` fills the
missing fields with dataclass defaults — rather than the `None` the
original claim requires for any schema mismatch. -/
theorem load_schema_mismatch_cex :
    DownloadState.load (.json (.obj [("completed", .arr [.str "a"])])) =
      some { completed := ["a"] } := rfl

/-! ## `filter_existing_files` -/

theorem fef_loop (E : List String) (l : List (String × String)) :
    ∀ (acc : List (String × String)) (k : Nat),
      l.foldl
        (fun acc it =>
          if (standardize_filename it.1 ++ ".csv") ∈ E then (acc.1, acc.2 + 1)
          else (acc.1 ++ [it], acc.2)) (acc, k) =
      (acc ++ l.filter (fun it => ¬ (standardize_filename it.1 ++ ".csv") ∈ E),
       k + (l.filter (fun it => (standardize_filename it.1 ++ ".csv") ∈ E)).length) := by
  induction l with
  | nil =>
      intro acc k
      simp
  | cons hd tl ih =>
      intro acc k
      simp only [List.foldl_cons]
      by_cases h : (standardize_filename hd.1 ++ ".csv") ∈ E
      · rw [if_pos h, ih]
        simp [List.filter_cons, h]
        omega
      · rw [if_neg h, ih]
        simp [List.filter_cons, h]

/-- C9: `filter_existing_files` with `force` set returns the input
unchanged with `skipped = 0`; with a missing partition folder it
also returns the input unchanged; otherwise it removes exactly those
items whose normalized filename plus `.csv` occurs among the `.csv`
entries of the folder listing, returning the number removed as the
skipped count. -/
theorem filter_existing_files_spec :
    (∀ (l : List (String × String)) (tf : Option (List String)),
        filter_existing_files l tf true = (l, 0)) ∧
    (∀ l : List (String × String), filter_existing_files l none false = (l, 0)) ∧
    (∀ (l : List (String × String)) (files : List String),
        filter_existing_files l (some files) false =
          (l.filter (fun it =>
             ¬ (standardize_filename it.1 ++ ".csv") ∈
               files.filter (fun f => f.endsWith ".csv")),
           (l.filter (fun it =>
             (standardize_filename it.1 ++ ".csv") ∈
               files.filter (fun f => f.endsWith ".csv"))).length)) := by
  refine ⟨fun l tf => rfl, fun l => rfl, fun l files => ?_⟩
  simp only [filter_existing_files]
  rw [fef_loop]
  simp

end Niagara
